import Mathlib

/-!
Verification development for the token codec in `utils/tokensAndEncryption.go`.

Modelling conventions:
* Go byte slices are `List Nat` with every entry below 256 (hypothesised where it
  matters); Go `int64` timestamps are `Int` (the epoch-second values of interest
  are far below 2^63, so wraparound is not modelled).
* Fallible Go functions returning `(value, error)` become `GoResult`; a Go
  runtime panic (`panic(err)` or an out-of-range slice) is the `crash`
  constructor, distinct from an ordinary returned error.
* `crypto/rand` nonce generation is modelled by passing the 12 freshly drawn
  bytes as an explicit `nonce` argument.
* The chacha20poly1305 AEAD is third-party library code, so it is kept abstract
  as a pair of seal/open functions; the library facts a theorem needs
  (round-trip, tag failure under a wrong key, ciphertext length = plaintext
  length + 16) appear as hypotheses, discharged on a concrete executable
  instance in the witnesses.  Its key size 32, nonce size 12 and overhead 16
  are fixed constants of the library and are inlined.
* `encoding/json` marshalling of the `Claims` struct and unmarshalling back
  are modelled executably for the fragment the code exercises: compact objects
  whose members are double-quoted keys with string or integer values, exact
  (case-sensitive) field-name match, unknown keys skipped, missing keys left
  at their zero value — mirroring `json.Unmarshal` semantics on such inputs.
  Error message strings are representative, not byte-for-byte Go messages.
-/

/-- Outcome of a Go call: a returned value, a returned `error`, or a runtime
panic aborting the process (`crash`). -/
inductive GoResult (α : Type) where
  | ok : α → GoResult α
  | err : String → GoResult α
  | crash : String → GoResult α
deriving DecidableEq, Repr

/-- Abstract interface of the chacha20poly1305 AEAD used by the code:
`seal key nonce plaintext` returns ciphertext with appended tag,
`openK key nonce ct` returns the plaintext or `none` on tag failure. -/
structure AEAD where
  sealFn : List Nat → List Nat → List Nat → List Nat
  openFn : List Nat → List Nat → List Nat → Option (List Nat)

/-- The lowercase hex digit for a value below 16, as `encoding/hex` emits it. -/
def hexDigitChar (n : Nat) : Char :=
  if n < 10 then Char.ofNat (48 + n) else Char.ofNat (87 + n)

/-- Value of one hex digit character, accepting both cases as
`encoding/hex` does; `none` on a non-hex character. -/
def hexDigitVal (c : Char) : Option Nat :=
  if '0' ≤ c ∧ c ≤ '9' then some (c.toNat - 48)
  else if 'a' ≤ c ∧ c ≤ 'f' then some (c.toNat - 87)
  else if 'A' ≤ c ∧ c ≤ 'F' then some (c.toNat - 55)
  else none

/-- `hex.DecodeString` on the character list: bytes from pairs of hex digits;
fails on a non-hex character or odd length. -/
def hexDecodeCore : List Char → Option (List Nat)
  | [] => some []
  | [_] => none
  | c1 :: c2 :: rest =>
    match hexDigitVal c1, hexDigitVal c2, hexDecodeCore rest with
    | some h, some l, some bs => some ((16 * h + l) :: bs)
    | _, _, _ => none

/-- Model of Go `hex.DecodeString`. -/
def hexDecode (s : String) : Option (List Nat) :=
  hexDecodeCore s.data

/-- `hex.EncodeToString` on byte lists: two lowercase hex digits per byte. -/
def hexEncodeCore : List Nat → List Char
  | [] => []
  | b :: rest => hexDigitChar (b / 16) :: hexDigitChar (b % 16) :: hexEncodeCore rest

/-- Model of Go `hex.EncodeToString`. -/
def hexEncode (bs : List Nat) : String :=
  String.mk (hexEncodeCore bs)

/-- The `Claims` struct of the source, with its three JSON-tagged fields. -/
structure Claims where
  Id : String
  ExpiresAt : Int
  IssuedAt : Int
deriving DecidableEq, Repr

/-- Bytes of a string (UTF-8 agrees with code points on the ASCII subset the
theorems quantify over). -/
def strBytes (s : String) : List Nat :=
  s.data.map Char.toNat

/-- Back from bytes to a string (inverse of `strBytes` on its range). -/
def bytesStr (bs : List Nat) : String :=
  String.mk (bs.map Char.ofNat)

/-- Big-endian decimal ASCII digits of `n`, fuel-based so the kernel can
evaluate it (`fuel ≥ n` suffices). -/
def natBytesAux : Nat → Nat → List Nat → List Nat
  | _, 0, acc => acc
  | 0, _ + 1, acc => acc
  | fuel + 1, m + 1, acc => natBytesAux fuel ((m + 1) / 10) (((m + 1) % 10 + 48) :: acc)

/-- Decimal ASCII bytes of a natural number, as `encoding/json` prints it. -/
def natBytes (n : Nat) : List Nat :=
  if n = 0 then [48] else natBytesAux n n []

/-- Decimal ASCII bytes of an `int64`, minus sign included. -/
def intBytes (i : Int) : List Nat :=
  if i < 0 then 45 :: natBytes i.natAbs else natBytes i.toNat

/-- Numeric value of a list of decimal ASCII digit bytes. -/
def digitsVal (bs : List Nat) : Nat :=
  bs.foldl (fun a b => a * 10 + (b - 48)) 0

/-- Is this byte an ASCII decimal digit? -/
def isDigitB (b : Nat) : Bool :=
  decide (48 ≤ b ∧ b ≤ 57)

/-- `json.Marshal` of a `Claims` value: compact object, fields in struct
declaration order with their lowercase JSON tags.  For subject ids in the
unescaped ASCII range (see `GoodId`) this is byte-for-byte what Go emits. -/
def marshalClaims (c : Claims) : List Nat :=
  123 :: 34 :: 105 :: 100 :: 34 :: 58 :: 34 ::
    (strBytes c.Id ++ 34 :: 44 ::
      (34 :: 101 :: 120 :: 112 :: 105 :: 114 :: 101 :: 115 :: 65 :: 116 :: 34 :: 58 ::
        (intBytes c.ExpiresAt ++ 44 ::
          (34 :: 105 :: 115 :: 115 :: 117 :: 101 :: 100 :: 65 :: 116 :: 34 :: 58 ::
            (intBytes c.IssuedAt ++ [125])))))

/-- A compact JSON object carrying only the `expiresAt` and `issuedAt`
members — a payload in which the `id` field is absent. -/
def marshalNoId (e i : Int) : List Nat :=
  123 ::
    (34 :: 101 :: 120 :: 112 :: 105 :: 114 :: 101 :: 115 :: 65 :: 116 :: 34 :: 58 ::
      (intBytes e ++ 44 ::
        (34 :: 105 :: 115 :: 115 :: 117 :: 101 :: 100 :: 65 :: 116 :: 34 :: 58 ::
          (intBytes i ++ [125]))))

/-- A parsed JSON scalar: string (as its bytes) or integer. -/
inductive JVal where
  | jstr : List Nat → JVal
  | jint : Int → JVal

/-- Parse a JSON string body (after the opening quote) up to the closing
quote; escapes are not needed for the payloads the code produces. -/
def parseJStr (bs : List Nat) : Option (List Nat × List Nat) :=
  match bs.dropWhile (fun b => b != 34) with
  | 34 :: r => some (bs.takeWhile (fun b => b != 34), r)
  | _ => none

/-- Parse a run of decimal digits into its value. -/
def parseJNat (bs : List Nat) : Option (Nat × List Nat) :=
  match bs with
  | b :: _ => if isDigitB b then some (digitsVal (bs.takeWhile isDigitB), bs.dropWhile isDigitB) else none
  | [] => none

/-- Parse one JSON scalar value: a quoted string or a (possibly negative)
integer literal. -/
def parseJVal (bs : List Nat) : Option (JVal × List Nat) :=
  match bs with
  | [] => none
  | b :: rest =>
    if b = 34 then (parseJStr rest).map (fun p => (JVal.jstr p.1, p.2))
    else if b = 45 then
      match parseJNat rest with
      | some (n, r) => some (JVal.jint (-(n : Int)), r)
      | none => none
    else (parseJNat bs).map (fun p => (JVal.jint (p.1 : Int), p.2))

/-- Apply one parsed object member to the `Claims` being built, as
`json.Unmarshal` does: known keys require the matching type (else a type
error), unknown keys are skipped, later duplicates overwrite. -/
def applyMember (c : Claims) (key : List Nat) (v : JVal) : Option Claims :=
  if key = [105, 100] then
    match v with
    | JVal.jstr s => some { c with Id := bytesStr s }
    | _ => none
  else if key = [101, 120, 112, 105, 114, 101, 115, 65, 116] then
    match v with
    | JVal.jint n => some { c with ExpiresAt := n }
    | _ => none
  else if key = [105, 115, 115, 117, 101, 100, 65, 116] then
    match v with
    | JVal.jint n => some { c with IssuedAt := n }
    | _ => none
  else some c

/-- Member list of a compact JSON object: `"key":value` pairs separated by
commas, closed by the final brace which must end the input.  Fuel bounds the
number of members. -/
def parseMembers : Nat → List Nat → Claims → Option Claims
  | 0, _, _ => none
  | fuel + 1, bs, c =>
    match bs with
    | 34 :: r1 =>
      match parseJStr r1 with
      | none => none
      | some (key, r2) =>
        match r2 with
        | 58 :: r3 =>
          match parseJVal r3 with
          | none => none
          | some (v, r4) =>
            match applyMember c key v with
            | none => none
            | some c2 =>
              match r4 with
              | 44 :: r5 => parseMembers fuel r5 c2
              | [125] => some c2
              | _ => none
        | _ => none
    | _ => none

/-- `json.Unmarshal` of a byte payload into a `Claims` struct, on the JSON
fragment described in the header comment: a compact object; fields left at
their Go zero value when their key is absent. -/
def unmarshalClaims (bs : List Nat) : Option Claims :=
  match bs with
  | [123, 125] => some { Id := "", ExpiresAt := 0, IssuedAt := 0 }
  | 123 :: rest => parseMembers (rest.length + 1) rest { Id := "", ExpiresAt := 0, IssuedAt := 0 }
  | _ => none

/-- `EncryptData(plaintext, hexKey)` from the source, with the 12 nonce bytes
drawn from `crypto/rand` passed explicitly.  Faithfully to the source, a key
that fails hex decoding is a `panic(err)` (`crash`), and a decoded key whose
length is not 32 is the error `chacha20poly1305.New` returns. -/
def EncryptData (A : AEAD) (nonce : List Nat) (plaintext : List Nat) (hexKey : String) : GoResult String :=
  match hexDecode hexKey with
  | none => .crash "encoding/hex: invalid byte"
  | some key =>
    if key.length ≠ 32 then .err "chacha20poly1305: bad key length"
    else .ok (hexEncode (nonce ++ A.sealFn key nonce plaintext))

/-- `DecryptData(ciphertextHex, hexKey)` from the source: key decode failure
panics; token decode failure is returned as an error; then
`ciphertext[:12]` / `ciphertext[12:]` panics (slice out of range) whenever
the decoded token is shorter than the 12-byte nonce; finally `aead.Open`. -/
def DecryptData (A : AEAD) (ciphertextHex : String) (hexKey : String) : GoResult (List Nat) :=
  match hexDecode hexKey with
  | none => .crash "encoding/hex: invalid byte"
  | some key =>
    match hexDecode ciphertextHex with
    | none => .err "encoding/hex: invalid byte"
    | some ciphertext =>
      if key.length ≠ 32 then .err "chacha20poly1305: bad key length"
      else if ciphertext.length < 12 then .crash "runtime error: slice bounds out of range"
      else
        match A.openFn key (ciphertext.take 12) (ciphertext.drop 12) with
        | none => .err "chacha20poly1305: message authentication failed"
        | some plaintext => .ok plaintext

/-- The `Claims` literal built by `GenerateAccessToken`: `ExpiresAt` from the
first `time.Now()` reading (`now1`, plus 15 minutes = 900 s), `IssuedAt` from
the second reading (`now2`). -/
def accessClaims (userId : String) (now1 now2 : Int) : Claims :=
  { Id := userId, ExpiresAt := now1 + 900, IssuedAt := now2 }

/-- The `Claims` literal built by `GenerateRefreshToken`: TTL 7 days
= 604800 s; same two-readings structure. -/
def refreshClaims (userId : String) (now1 now2 : Int) : Claims :=
  { Id := userId, ExpiresAt := now1 + 604800, IssuedAt := now2 }

/-- `GenerateAccessToken` from the source.  `json.Marshal` of a `Claims`
value never fails, so the source's `panic(err)` branch after it is dead and
does not appear; the result is exactly `EncryptData` of the marshalled
claims. -/
def GenerateAccessToken (A : AEAD) (nonce : List Nat) (userId hexKey : String) (now1 now2 : Int) : GoResult String :=
  EncryptData A nonce (marshalClaims (accessClaims userId now1 now2)) hexKey

/-- `GenerateRefreshToken` from the source; same shape as
`GenerateAccessToken` with the 7-day TTL. -/
def GenerateRefreshToken (A : AEAD) (nonce : List Nat) (userId hexKey : String) (now1 now2 : Int) : GoResult String :=
  EncryptData A nonce (marshalClaims (refreshClaims userId now1 now2)) hexKey

/-- `ValidateToken` from the source: decrypt, unmarshal, then reject iff
`claims.ExpiresAt < time.Now().Unix()` (strict), with `now` that reading. -/
def ValidateToken (A : AEAD) (tokenStr hexKey : String) (now : Int) : GoResult Claims :=
  match DecryptData A tokenStr hexKey with
  | .crash m => .crash m
  | .err m => .err m
  | .ok plaintext =>
    match unmarshalClaims plaintext with
    | none => .err "json: cannot unmarshal into Claims"
    | some claims =>
      if claims.ExpiresAt < now then .err "token expired"
      else .ok claims

/-- Subject ids whose characters the Go JSON encoder emits verbatim:
printable ASCII except the quote, backslash and the HTML-escaped
characters.  On these, `marshalClaims` is byte-for-byte `json.Marshal`. -/
def GoodId (s : String) : Prop :=
  ∀ ch ∈ s.data, 32 ≤ ch.toNat ∧ ch.toNat ≤ 126 ∧ ch.toNat ≠ 34 ∧
    ch.toNat ≠ 92 ∧ ch.toNat ≠ 60 ∧ ch.toNat ≠ 62 ∧ ch.toNat ≠ 38

instance (s : String) : Decidable (GoodId s) := by
  unfold GoodId; infer_instance

/-- Tag of the executable toy AEAD instance used in witnesses: sixteen
copies of a key/nonce/plaintext checksum. -/
def toyTag (key nonce ct : List Nat) : List Nat :=
  List.replicate 16 ((key.sum + nonce.sum + 2 * ct.sum + ct.length) % 251)

/-- Executable toy AEAD used only to discharge hypotheses in witnesses:
seal appends `toyTag`; open checks and strips it. -/
def toyAEAD : AEAD where
  sealFn := fun key nonce pt => pt ++ toyTag key nonce pt
  openFn := fun key nonce c =>
    if c.length < 16 then none
    else
      if c.drop (c.length - 16) = toyTag key nonce (c.take (c.length - 16)) then
        some (c.take (c.length - 16))
      else none

/-- 64-character hex key of 32 zero bytes. -/
def zeroKeyHex : String :=
  "0000000000000000000000000000000000000000000000000000000000000000"

/-- 64-character hex key of 32 bytes 0x01. -/
def onesKeyHex : String :=
  "0101010101010101010101010101010101010101010101010101010101010101"

/-- A concrete 12-byte nonce. -/
def nonce12 : List Nat :=
  [0, 1, 2, 3, 4, 5, 6, 7, 8, 9, 10, 11]

/-- A `Claims` payload whose expiry precedes its issue time, and its sealed
token under the toy AEAD and the all-zero key. -/
def invertedClaims : Claims :=
  { Id := "u", ExpiresAt := 100, IssuedAt := 200 }

/-- Token carrying `invertedClaims`. -/
def tokenInverted : String :=
  hexEncode (nonce12 ++ toyAEAD.sealFn (List.replicate 32 0) nonce12 (marshalClaims invertedClaims))

/-- Token whose decrypted payload is a JSON object with no `id` member. -/
def tokenNoId : String :=
  hexEncode (nonce12 ++ toyAEAD.sealFn (List.replicate 32 0) nonce12 (marshalNoId 99 1))

/-! ### Helper lemmas: hex codec -/

lemma hexDigitVal_hexDigitChar : ∀ n < 16, hexDigitVal (hexDigitChar n) = some n := by decide

lemma hexDecodeCore_hexEncodeCore (bs : List Nat) (h : ∀ b ∈ bs, b < 256) :
    hexDecodeCore (hexEncodeCore bs) = some bs := by
  induction bs with
  | nil => rfl
  | cons b rest ih =>
    have hb : b < 256 := h b (List.mem_cons_self b rest)
    have h1 : hexDigitVal (hexDigitChar (b / 16)) = some (b / 16) :=
      hexDigitVal_hexDigitChar _ (by omega)
    have h2 : hexDigitVal (hexDigitChar (b % 16)) = some (b % 16) :=
      hexDigitVal_hexDigitChar _ (Nat.mod_lt _ (by norm_num))
    have ih' := ih (fun x hx => h x (List.mem_cons_of_mem _ hx))
    simp only [hexEncodeCore, hexDecodeCore]
    rw [h1, h2, ih']
    simp [Nat.div_add_mod]

lemma hexDecode_hexEncode (bs : List Nat) (h : ∀ b ∈ bs, b < 256) :
    hexDecode (hexEncode bs) = some bs := by
  simpa [hexDecode, hexEncode] using hexDecodeCore_hexEncodeCore bs h

lemma hexEncodeCore_length (bs : List Nat) : (hexEncodeCore bs).length = 2 * bs.length := by
  induction bs with
  | nil => rfl
  | cons b rest ih => simp [hexEncodeCore, ih]; omega

lemma hexEncode_length (bs : List Nat) : (hexEncode bs).length = 2 * bs.length := by
  simp [hexEncode, String.length, hexEncodeCore_length]

lemma hexEncode_injOn {xs ys : List Nat} (hx : ∀ b ∈ xs, b < 256) (hy : ∀ b ∈ ys, b < 256)
    (h : hexEncode xs = hexEncode ys) : xs = ys := by
  have := hexDecode_hexEncode xs hx
  rw [h, hexDecode_hexEncode ys hy] at this
  exact (Option.some.injEq _ _ ▸ this).symm

/-! ### Helper lemmas: takeWhile / dropWhile over an append -/

lemma takeWhile_append_all {p : Nat → Bool} {l r : List Nat} (hl : ∀ x ∈ l, p x = true)
    (hr : ∀ b ∈ r.take 1, p b = false) :
    (l ++ r).takeWhile p = l := by
  induction l with
  | nil =>
    cases r with
    | nil => rfl
    | cons b rs => simp [List.takeWhile_cons, hr b (by simp)]
  | cons a l ih =>
    have ha : p a = true := hl a (List.mem_cons_self a l)
    simp [List.takeWhile_cons, ha, ih (fun x hx => hl x (List.mem_cons_of_mem _ hx))]

lemma dropWhile_append_all {p : Nat → Bool} {l r : List Nat} (hl : ∀ x ∈ l, p x = true)
    (hr : ∀ b ∈ r.take 1, p b = false) :
    (l ++ r).dropWhile p = r := by
  induction l with
  | nil =>
    cases r with
    | nil => rfl
    | cons b rs => simp [List.dropWhile_cons, hr b (by simp)]
  | cons a l ih =>
    have ha : p a = true := hl a (List.mem_cons_self a l)
    simp [List.dropWhile_cons, ha, ih (fun x hx => hl x (List.mem_cons_of_mem _ hx))]

lemma parseJStr_concat {idB r : List Nat} (h : ∀ b ∈ idB, b ≠ 34) :
    parseJStr (idB ++ 34 :: r) = some (idB, r) := by
  have hl : ∀ x ∈ idB, (x != 34) = true := fun x hx => by simp [h x hx]
  have hr : ∀ b ∈ (34 :: r).take 1, (b != 34) = false := by intro b hb; simp at hb; simp [hb]
  simp [parseJStr, takeWhile_append_all hl hr, dropWhile_append_all hl hr]

/-! ### Helper lemmas: decimal digits -/

lemma natBytesAux_zero (fuel : Nat) (acc : List Nat) : natBytesAux fuel 0 acc = acc := by
  cases fuel <;> rfl

lemma natBytesAux_acc : ∀ n : Nat, ∀ fuel acc, n ≤ fuel →
    natBytesAux fuel n acc = natBytesAux n n [] ++ acc := by
  intro n
  induction n using Nat.strong_induction_on with
  | _ n ih =>
    intro fuel acc hfuel
    match n, fuel with
    | 0, fuel => simp [natBytesAux_zero]
    | m + 1, fuel + 1 =>
      have hq : (m + 1) / 10 < m + 1 := Nat.div_lt_self (Nat.succ_pos m) (by norm_num)
      have hq' : (m + 1) / 10 ≤ fuel := by omega
      have hq'' : (m + 1) / 10 ≤ m := by omega
      rw [natBytesAux, natBytesAux, ih _ hq _ _ hq', ih _ hq _ _ hq'']
      simp

lemma natBytesAux_succ (m : Nat) :
    natBytesAux (m + 1) (m + 1) [] =
      natBytesAux ((m + 1) / 10) ((m + 1) / 10) [] ++ [(m + 1) % 10 + 48] := by
  have hq : (m + 1) / 10 < m + 1 := Nat.div_lt_self (Nat.succ_pos m) (by norm_num)
  rw [natBytesAux, natBytesAux_acc _ _ _ (by omega)]

lemma natBytesAux_digits : ∀ n : Nat, ∀ b ∈ natBytesAux n n [], 48 ≤ b ∧ b ≤ 57 := by
  intro n
  induction n using Nat.strong_induction_on with
  | _ n ih =>
    match n with
    | 0 => intro b hb; simp [natBytesAux_zero] at hb
    | m + 1 =>
      intro b hb
      rw [natBytesAux_succ] at hb
      rcases List.mem_append.mp hb with h | h
      · exact ih _ (Nat.div_lt_self (Nat.succ_pos m) (by norm_num)) b h
      · simp at h
        have : (m + 1) % 10 < 10 := Nat.mod_lt _ (by norm_num)
        omega

lemma natBytesAux_foldl : ∀ n : Nat, ∀ v : Nat,
    List.foldl (fun a b => a * 10 + (b - 48)) v (natBytesAux n n []) =
      v * 10 ^ (natBytesAux n n []).length + n := by
  intro n
  induction n using Nat.strong_induction_on with
  | _ n ih =>
    match n with
    | 0 => intro v; simp [natBytesAux_zero]
    | m + 1 =>
      intro v
      have hq : (m + 1) / 10 < m + 1 := Nat.div_lt_self (Nat.succ_pos m) (by norm_num)
      rw [natBytesAux_succ, List.foldl_append, ih _ hq v]
      simp only [List.foldl_cons, List.foldl_nil, List.length_append, List.length_cons,
        List.length_nil, Nat.zero_add, Nat.add_sub_cancel]
      have hqm := Nat.div_add_mod (m + 1) 10
      calc (v * 10 ^ (natBytesAux ((m + 1) / 10) ((m + 1) / 10) []).length + (m + 1) / 10) * 10
            + (m + 1) % 10
          = v * 10 ^ ((natBytesAux ((m + 1) / 10) ((m + 1) / 10) []).length + 1)
            + (10 * ((m + 1) / 10) + (m + 1) % 10) := by rw [pow_succ]; ring
        _ = v * 10 ^ ((natBytesAux ((m + 1) / 10) ((m + 1) / 10) []).length + 1) + (m + 1) := by
            rw [hqm]

lemma natBytesAux_ne_nil (m : Nat) : natBytesAux (m + 1) (m + 1) [] ≠ [] := by
  rw [natBytesAux_succ]
  simp

lemma natBytes_digits (n : Nat) : ∀ b ∈ natBytes n, 48 ≤ b ∧ b ≤ 57 := by
  unfold natBytes
  split
  · intro b hb; simp at hb; omega
  · exact natBytesAux_digits n

lemma digitsVal_natBytes (n : Nat) : digitsVal (natBytes n) = n := by
  unfold natBytes digitsVal
  split
  · simp_all
  · simpa using natBytesAux_foldl n 0

lemma natBytes_ne_nil (n : Nat) : natBytes n ≠ [] := by
  unfold natBytes
  split
  · simp
  · match n with
    | 0 => simp_all
    | m + 1 => exact natBytesAux_ne_nil m

/-! ### Helper lemmas: JSON value parsing -/

lemma parseJNat_concat {n : Nat} {r : List Nat} (hr : ∀ b ∈ r.take 1, isDigitB b = false) :
    parseJNat (natBytes n ++ r) = some (n, r) := by
  have hdig : ∀ b ∈ natBytes n, isDigitB b = true := by
    intro b hb
    have := natBytes_digits n b hb
    simp [isDigitB]; omega
  obtain ⟨d, ds, hds⟩ : ∃ d ds, natBytes n = d :: ds := by
    cases h : natBytes n with
    | nil => exact absurd h (natBytes_ne_nil n)
    | cons d ds => exact ⟨d, ds, rfl⟩
  have hd : isDigitB d = true := hdig d (by rw [hds]; exact List.mem_cons_self d ds)
  have ht : (natBytes n ++ r).takeWhile isDigitB = natBytes n := takeWhile_append_all hdig hr
  have hdw : (natBytes n ++ r).dropWhile isDigitB = r := dropWhile_append_all hdig hr
  rw [hds, List.cons_append]
  simp only [parseJNat, hd, ite_true]
  rw [← List.cons_append, ← hds, ht, hdw, digitsVal_natBytes]

lemma parseJVal_nat {n : Nat} {r : List Nat} (hr : ∀ b ∈ r.take 1, isDigitB b = false) :
    parseJVal (natBytes n ++ r) = some (JVal.jint (n : Int), r) := by
  obtain ⟨d, ds, hds⟩ : ∃ d ds, natBytes n = d :: ds := by
    cases h : natBytes n with
    | nil => exact absurd h (natBytes_ne_nil n)
    | cons d ds => exact ⟨d, ds, rfl⟩
  have hd48 : 48 ≤ d ∧ d ≤ 57 := natBytes_digits n d (by rw [hds]; exact List.mem_cons_self d ds)
  have h34 : ¬ (d = 34) := by omega
  have h45 : ¬ (d = 45) := by omega
  rw [hds, List.cons_append]
  simp only [parseJVal]
  rw [if_neg h34, if_neg h45, ← List.cons_append, ← hds, parseJNat_concat hr]
  rfl

lemma intBytes_nonneg {i : Int} (h : 0 ≤ i) : intBytes i = natBytes i.toNat := by
  simp [intBytes, not_lt.mpr h]

lemma parseJVal_int {i : Int} (h : 0 ≤ i) {r : List Nat} (hr : ∀ b ∈ r.take 1, isDigitB b = false) :
    parseJVal (intBytes i ++ r) = some (JVal.jint i, r) := by
  rw [intBytes_nonneg h, parseJVal_nat hr, Int.toNat_of_nonneg h]

lemma bytesStr_strBytes (s : String) : bytesStr (strBytes s) = s := by
  cases s with
  | mk data =>
    simp [bytesStr, strBytes, List.map_map, Function.comp_def, Char.ofNat_toNat]

/-! ### Helper lemmas: stepping through one object member -/

lemma parseMembers_id (f : Nat) (idB r : List Nat) (c : Claims) (h : ∀ b ∈ idB, b ≠ 34) :
    parseMembers (f + 1) (34 :: 105 :: 100 :: 34 :: 58 :: 34 :: (idB ++ 34 :: 44 :: r)) c =
      parseMembers f r { c with Id := bytesStr idB } := by
  have h1 : parseJStr (105 :: 100 :: 34 :: 58 :: 34 :: (idB ++ 34 :: 44 :: r)) =
      some ([105, 100], 58 :: 34 :: (idB ++ 34 :: 44 :: r)) := by
    simp [parseJStr, List.dropWhile_cons, List.takeWhile_cons]
  have h2 : parseJVal (34 :: (idB ++ 34 :: 44 :: r)) =
      some (JVal.jstr idB, 44 :: r) := by
    simp only [parseJVal, ite_true, parseJStr_concat h]
    rfl
  simp only [parseMembers, h1, h2]
  rfl

lemma parseMembers_expires (f : Nat) (e : Int) (he : 0 ≤ e) (r : List Nat) (c : Claims) :
    parseMembers (f + 1)
      (34 :: 101 :: 120 :: 112 :: 105 :: 114 :: 101 :: 115 :: 65 :: 116 :: 34 :: 58 ::
        (intBytes e ++ 44 :: r)) c =
      parseMembers f r { c with ExpiresAt := e } := by
  have h1 : parseJStr (101 :: 120 :: 112 :: 105 :: 114 :: 101 :: 115 :: 65 :: 116 :: 34 :: 58 ::
      (intBytes e ++ 44 :: r)) =
      some ([101, 120, 112, 105, 114, 101, 115, 65, 116], 58 :: (intBytes e ++ 44 :: r)) := by
    simp [parseJStr, List.dropWhile_cons, List.takeWhile_cons]
  have h2 : parseJVal (intBytes e ++ 44 :: r) = some (JVal.jint e, 44 :: r) :=
    parseJVal_int he (by intro b hb; simp at hb; simp [hb, isDigitB])
  simp only [parseMembers, h1, h2]
  rfl

lemma parseMembers_issued_last (f : Nat) (i : Int) (hi : 0 ≤ i) (c : Claims) :
    parseMembers (f + 1)
      (34 :: 105 :: 115 :: 115 :: 117 :: 101 :: 100 :: 65 :: 116 :: 34 :: 58 ::
        (intBytes i ++ [125])) c =
      some { c with IssuedAt := i } := by
  have h1 : parseJStr (105 :: 115 :: 115 :: 117 :: 101 :: 100 :: 65 :: 116 :: 34 :: 58 ::
      (intBytes i ++ [125])) =
      some ([105, 115, 115, 117, 101, 100, 65, 116], 58 :: (intBytes i ++ [125])) := by
    simp [parseJStr, List.dropWhile_cons, List.takeWhile_cons]
  have h2 : parseJVal (intBytes i ++ [125]) = some (JVal.jint i, [125]) :=
    parseJVal_int hi (by intro b hb; simp at hb; simp [hb, isDigitB])
  simp only [parseMembers, h1, h2]
  rfl

/-- Running the member loop over the full three-member object, for any
sufficient fuel. -/
lemma parseMembers_full (fuel : Nat) (hfuel : 3 ≤ fuel) (idB : List Nat) (e i : Int)
    (c0 : Claims) (h34 : ∀ b ∈ idB, b ≠ 34) (he : 0 ≤ e) (hi : 0 ≤ i) :
    parseMembers fuel
      (34 :: 105 :: 100 :: 34 :: 58 :: 34 ::
        (idB ++ 34 :: 44 ::
          (34 :: 101 :: 120 :: 112 :: 105 :: 114 :: 101 :: 115 :: 65 :: 116 :: 34 :: 58 ::
            (intBytes e ++ 44 ::
              (34 :: 105 :: 115 :: 115 :: 117 :: 101 :: 100 :: 65 :: 116 :: 34 :: 58 ::
                (intBytes i ++ [125])))))) c0 =
      some { Id := bytesStr idB, ExpiresAt := e, IssuedAt := i } := by
  obtain ⟨f, rfl⟩ : ∃ f, fuel = f + 1 + 1 + 1 := ⟨fuel - 3, by omega⟩
  rw [parseMembers_id _ _ _ _ h34, parseMembers_expires _ _ he, parseMembers_issued_last _ _ hi]

/-- Running the member loop over the two-member object missing `id`. -/
lemma parseMembers_noId (fuel : Nat) (hfuel : 2 ≤ fuel) (e i : Int) (c0 : Claims)
    (he : 0 ≤ e) (hi : 0 ≤ i) :
    parseMembers fuel
      (34 :: 101 :: 120 :: 112 :: 105 :: 114 :: 101 :: 115 :: 65 :: 116 :: 34 :: 58 ::
        (intBytes e ++ 44 ::
          (34 :: 105 :: 115 :: 115 :: 117 :: 101 :: 100 :: 65 :: 116 :: 34 :: 58 ::
            (intBytes i ++ [125])))) c0 =
      some { c0 with ExpiresAt := e, IssuedAt := i } := by
  obtain ⟨f, rfl⟩ : ∃ f, fuel = f + 1 + 1 := ⟨fuel - 2, by omega⟩
  rw [parseMembers_expires _ _ he, parseMembers_issued_last _ _ hi]

/-- `json.Unmarshal` inverts `json.Marshal` on every `Claims` value whose id
needs no escaping and whose timestamps are nonnegative. -/
lemma unmarshalClaims_marshalClaims (c : Claims) (hid : GoodId c.Id)
    (he : 0 ≤ c.ExpiresAt) (hi : 0 ≤ c.IssuedAt) :
    unmarshalClaims (marshalClaims c) = some c := by
  have hno34 : ∀ b ∈ strBytes c.Id, b ≠ 34 := by
    intro b hb
    simp only [strBytes, List.mem_map] at hb
    obtain ⟨ch, hch, rfl⟩ := hb
    exact (hid ch hch).2.2.1
  rw [marshalClaims, unmarshalClaims]
  rw [parseMembers_full _ (by simp) _ _ _ _ hno34 he hi]
  rw [bytesStr_strBytes]
  all_goals (intro h; simp at h)

/-- `json.Unmarshal` on the payload missing the `id` member succeeds with the
id left at its zero value. -/
lemma unmarshalClaims_marshalNoId (e i : Int) (he : 0 ≤ e) (hi : 0 ≤ i) :
    unmarshalClaims (marshalNoId e i) = some { Id := "", ExpiresAt := e, IssuedAt := i } := by
  rw [marshalNoId, unmarshalClaims]
  rw [parseMembers_noId _ (by simp) _ _ _ he hi]
  all_goals (intro h; simp at h)

/-! ### Helper lemma: decrypting a well-formed sealed token -/

lemma DecryptData_sealed (A : AEAD) (key nonce ct : List Nat) (keyHex : String)
    (hk : hexDecode keyHex = some key) (hkl : key.length = 32)
    (hnl : nonce.length = 12) (hnb : ∀ b ∈ nonce, b < 256) (hcb : ∀ b ∈ ct, b < 256) :
    DecryptData A (hexEncode (nonce ++ ct)) keyHex =
      match A.openFn key nonce ct with
      | none => .err "chacha20poly1305: message authentication failed"
      | some plaintext => .ok plaintext := by
  have hall : ∀ b ∈ nonce ++ ct, b < 256 := by
    intro b hb
    rcases List.mem_append.mp hb with h | h
    exacts [hnb b h, hcb b h]
  have hdec := hexDecode_hexEncode (nonce ++ ct) hall
  have hlen : ¬ (nonce ++ ct).length < 12 := by
    simp [List.length_append, hnl]
  have htake : (nonce ++ ct).take 12 = nonce := List.take_left' hnl
  have hdrop : (nonce ++ ct).drop 12 = ct := List.drop_left' hnl
  rw [DecryptData, hk, hdec]
  simp only [hkl, ne_eq, not_true_eq_false, ite_false, hlen, htake, hdrop]

/-! ### Pipeline helper lemmas -/

lemma GenerateAccessToken_ok (A : AEAD) (nonce : List Nat) (id keyHex : String)
    (key : List Nat) (t1 t2 : Int) (hk : hexDecode keyHex = some key) (hkl : key.length = 32) :
    GenerateAccessToken A nonce id keyHex t1 t2 =
      .ok (hexEncode (nonce ++ A.sealFn key nonce (marshalClaims (accessClaims id t1 t2)))) := by
  rw [GenerateAccessToken, EncryptData, hk]
  simp [hkl]

lemma DecryptData_open_ok {A : AEAD} {key nonce ct pt : List Nat} {keyHex : String}
    (hk : hexDecode keyHex = some key) (hkl : key.length = 32)
    (hnl : nonce.length = 12) (hnb : ∀ b ∈ nonce, b < 256) (hcb : ∀ b ∈ ct, b < 256)
    (hopen : A.openFn key nonce ct = some pt) :
    DecryptData A (hexEncode (nonce ++ ct)) keyHex = .ok pt := by
  rw [DecryptData_sealed A key nonce ct keyHex hk hkl hnl hnb hcb, hopen]

lemma DecryptData_open_fail {A : AEAD} {key nonce ct : List Nat} {keyHex : String}
    (hk : hexDecode keyHex = some key) (hkl : key.length = 32)
    (hnl : nonce.length = 12) (hnb : ∀ b ∈ nonce, b < 256) (hcb : ∀ b ∈ ct, b < 256)
    (hopen : A.openFn key nonce ct = none) :
    DecryptData A (hexEncode (nonce ++ ct)) keyHex =
      .err "chacha20poly1305: message authentication failed" := by
  rw [DecryptData_sealed A key nonce ct keyHex hk hkl hnl hnb hcb, hopen]

lemma ValidateToken_of_claims {A : AEAD} {tok keyHex : String} {c : Claims} {now : Int}
    (hdec : DecryptData A tok keyHex = .ok (marshalClaims c))
    (hid : GoodId c.Id) (he : 0 ≤ c.ExpiresAt) (hi : 0 ≤ c.IssuedAt) :
    ValidateToken A tok keyHex now =
      if c.ExpiresAt < now then .err "token expired" else .ok c := by
  simp only [ValidateToken, hdec, unmarshalClaims_marshalClaims c hid he hi]

lemma ValidateToken_of_autherr {A : AEAD} {tok keyHex : String} {now : Int}
    (hdec : DecryptData A tok keyHex = .err "chacha20poly1305: message authentication failed") :
    ValidateToken A tok keyHex now = .err "chacha20poly1305: message authentication failed" := by
  simp only [ValidateToken, hdec]


/-! ### Claim theorems -/

/-- C1: contrary to the claim, `ValidateToken` does not return a
malformed-token error on every short input: on the empty string and on a
valid hex string decoding to fewer than 12 bytes it panics at the
`ciphertext[:nonceSize]` slice; only the non-hex case is returned as an
error. -/
theorem C1_validateToken_short_input_crashes :
    ValidateToken toyAEAD "" zeroKeyHex 0 = .crash "runtime error: slice bounds out of range" ∧
    ValidateToken toyAEAD "00aabb" zeroKeyHex 0 = .crash "runtime error: slice bounds out of range" ∧
    ValidateToken toyAEAD "zz" zeroKeyHex 0 = .err "encoding/hex: invalid byte" := by
  exact ⟨by decide, by decide, by decide⟩

/-- C2: contrary to the claim, every codec operation panics (aborts the
process) when the key string is not valid hex, because `EncryptData` and
`DecryptData` call `panic(err)` after `hex.DecodeString` fails; only the
wrong-length valid-hex key is returned as an error. -/
theorem C2_nonhex_key_crashes :
    EncryptData toyAEAD nonce12 [1, 2, 3] "zz" = .crash "encoding/hex: invalid byte" ∧
    DecryptData toyAEAD "00" "zz" = .crash "encoding/hex: invalid byte" ∧
    GenerateAccessToken toyAEAD nonce12 "u" "zz" 0 0 = .crash "encoding/hex: invalid byte" ∧
    GenerateRefreshToken toyAEAD nonce12 "u" "zz" 0 0 = .crash "encoding/hex: invalid byte" ∧
    ValidateToken toyAEAD "00" "zz" 0 = .crash "encoding/hex: invalid byte" ∧
    EncryptData toyAEAD nonce12 [1, 2, 3] "00ff" = .err "chacha20poly1305: bad key length" := by
  exact ⟨by decide, by decide, by decide, by decide, by decide, by decide⟩

/-- C3: a token minted by `GenerateAccessToken` at instant `t` (both clock
readings returning `t`) under a valid 32-byte key validates under the same
key (while unexpired), returning the same subject id, `IssuedAt = t` and
`ExpiresAt = t + 900 = IssuedAt + `15 minutes. -/
theorem C3_mint_validate_roundtrip (A : AEAD) (id keyHex : String) (key nonce : List Nat)
    (t nowv : Int)
    (hk : hexDecode keyHex = some key) (hkl : key.length = 32)
    (hnl : nonce.length = 12) (hnb : ∀ b ∈ nonce, b < 256)
    (hsb : ∀ b ∈ A.sealFn key nonce (marshalClaims (accessClaims id t t)), b < 256)
    (hopen : A.openFn key nonce (A.sealFn key nonce (marshalClaims (accessClaims id t t))) =
      some (marshalClaims (accessClaims id t t)))
    (hid : GoodId id) (ht : 0 ≤ t) (hnow : ¬ t + 900 < nowv) :
    GenerateAccessToken A nonce id keyHex t t =
      .ok (hexEncode (nonce ++ A.sealFn key nonce (marshalClaims (accessClaims id t t)))) ∧
    ValidateToken A (hexEncode (nonce ++ A.sealFn key nonce (marshalClaims (accessClaims id t t))))
        keyHex nowv =
      .ok { Id := id, ExpiresAt := t + 900, IssuedAt := t } := by
  refine ⟨GenerateAccessToken_ok A nonce id keyHex key t t hk hkl, ?_⟩
  have hdec := DecryptData_open_ok hk hkl hnl hnb hsb hopen
  rw [ValidateToken_of_claims hdec hid (by simp [accessClaims]; omega) (by simpa [accessClaims] using ht)]
  rw [if_neg (by simpa [accessClaims] using hnow)]
  rfl

/-- C3 witness at a concrete instantiation. -/
theorem C3_mint_validate_roundtrip_witness :
    GenerateAccessToken toyAEAD nonce12 "user-42" zeroKeyHex 1000 1000 =
      .ok (hexEncode (nonce12 ++ toyAEAD.sealFn (List.replicate 32 0) nonce12
        (marshalClaims (accessClaims "user-42" 1000 1000)))) ∧
    ValidateToken toyAEAD
        (hexEncode (nonce12 ++ toyAEAD.sealFn (List.replicate 32 0) nonce12
          (marshalClaims (accessClaims "user-42" 1000 1000)))) zeroKeyHex 1000 =
      .ok { Id := "user-42", ExpiresAt := 1000 + 900, IssuedAt := 1000 } :=
  C3_mint_validate_roundtrip toyAEAD "user-42" zeroKeyHex (List.replicate 32 0) nonce12 1000 1000
    (by decide) (by decide) (by decide) (by decide) (by decide) (by decide) (by decide)
    (by decide) (by decide)

/-- C4: the expiry comparison is a strict `<` against the validation-time
clock reading: a token whose `ExpiresAt` is not less than `now` (in
particular equal to it) is accepted, and one with `ExpiresAt < now` is
rejected with the token-expired error. -/
theorem C4_expiry_strict_boundary (A : AEAD) (c : Claims) (keyHex : String)
    (key nonce : List Nat) (now1 now2 : Int)
    (hk : hexDecode keyHex = some key) (hkl : key.length = 32)
    (hnl : nonce.length = 12) (hnb : ∀ b ∈ nonce, b < 256)
    (hsb : ∀ b ∈ A.sealFn key nonce (marshalClaims c), b < 256)
    (hopen : A.openFn key nonce (A.sealFn key nonce (marshalClaims c)) = some (marshalClaims c))
    (hid : GoodId c.Id) (he : 0 ≤ c.ExpiresAt) (hi : 0 ≤ c.IssuedAt)
    (h1 : ¬ c.ExpiresAt < now1) (h2 : c.ExpiresAt < now2) :
    ValidateToken A (hexEncode (nonce ++ A.sealFn key nonce (marshalClaims c))) keyHex now1 =
      .ok c ∧
    ValidateToken A (hexEncode (nonce ++ A.sealFn key nonce (marshalClaims c))) keyHex now2 =
      .err "token expired" := by
  have hdec := DecryptData_open_ok hk hkl hnl hnb hsb hopen
  constructor
  · rw [ValidateToken_of_claims hdec hid he hi, if_neg h1]
  · rw [ValidateToken_of_claims hdec hid he hi, if_pos h2]

/-- C4 witness: a token with `ExpiresAt = 100` is accepted at `now = 100`
and rejected at `now = 101`. -/
theorem C4_expiry_strict_boundary_witness :
    ValidateToken toyAEAD
        (hexEncode (nonce12 ++ toyAEAD.sealFn (List.replicate 32 0) nonce12
          (marshalClaims { Id := "u", ExpiresAt := 100, IssuedAt := 50 }))) zeroKeyHex 100 =
      .ok { Id := "u", ExpiresAt := 100, IssuedAt := 50 } ∧
    ValidateToken toyAEAD
        (hexEncode (nonce12 ++ toyAEAD.sealFn (List.replicate 32 0) nonce12
          (marshalClaims { Id := "u", ExpiresAt := 100, IssuedAt := 50 }))) zeroKeyHex 101 =
      .err "token expired" :=
  C4_expiry_strict_boundary toyAEAD { Id := "u", ExpiresAt := 100, IssuedAt := 50 } zeroKeyHex
    (List.replicate 32 0) nonce12 100 101 (by decide) (by decide) (by decide) (by decide)
    (by decide) (by decide) (by decide) (by decide) (by decide) (by decide) (by decide)

/-- C5 counterexample: the two minters call `time.Now()` twice; when the
clock ticks from 1000 to 1001 between the two readings, the minted Claims
violate `expiresAt = issuedAt + ttl` (the gap is one second short). -/
theorem C5_counterexample_clock_tick :
    (accessClaims "u" 1000 1001).ExpiresAt ≠ (accessClaims "u" 1000 1001).IssuedAt + 900 ∧
    (refreshClaims "u" 1000 1001).ExpiresAt ≠ (refreshClaims "u" 1000 1001).IssuedAt + 604800 := by
  exact ⟨by decide, by decide⟩

/-- C5 amended: each minter builds Claims with `ExpiresAt` = first clock
reading + TTL (900 s for access, 604800 s for refresh) and `IssuedAt` =
second clock reading; whenever the two `time.Now()` calls read the same
second, `expiresAt = issuedAt + ttl` (and in particular
`issuedAt < expiresAt`) holds as the claim states. -/
theorem C5_minter_ttl (A : AEAD) (nonce : List Nat) (id keyHex : String) (t1 t2 : Int) :
    GenerateAccessToken A nonce id keyHex t1 t2 =
      EncryptData A nonce (marshalClaims (accessClaims id t1 t2)) keyHex ∧
    GenerateRefreshToken A nonce id keyHex t1 t2 =
      EncryptData A nonce (marshalClaims (refreshClaims id t1 t2)) keyHex ∧
    (accessClaims id t1 t2).ExpiresAt = t1 + 900 ∧
    (accessClaims id t1 t2).IssuedAt = t2 ∧
    (refreshClaims id t1 t2).ExpiresAt = t1 + 604800 ∧
    (refreshClaims id t1 t2).IssuedAt = t2 ∧
    (t1 = t2 →
      (accessClaims id t1 t2).ExpiresAt = (accessClaims id t1 t2).IssuedAt + 900 ∧
      (refreshClaims id t1 t2).ExpiresAt = (refreshClaims id t1 t2).IssuedAt + 604800 ∧
      (accessClaims id t1 t2).IssuedAt < (accessClaims id t1 t2).ExpiresAt) := by
  refine ⟨rfl, rfl, rfl, rfl, rfl, rfl, ?_⟩
  rintro rfl
  refine ⟨rfl, rfl, ?_⟩
  simp [accessClaims]

/-- C5 witness at a single shared clock reading. -/
theorem C5_minter_ttl_witness :
    GenerateAccessToken toyAEAD nonce12 "u" zeroKeyHex 1000 1000 =
      EncryptData toyAEAD nonce12 (marshalClaims (accessClaims "u" 1000 1000)) zeroKeyHex ∧
    GenerateRefreshToken toyAEAD nonce12 "u" zeroKeyHex 1000 1000 =
      EncryptData toyAEAD nonce12 (marshalClaims (refreshClaims "u" 1000 1000)) zeroKeyHex ∧
    (accessClaims "u" 1000 1000).ExpiresAt = 1000 + 900 ∧
    (accessClaims "u" 1000 1000).IssuedAt = 1000 ∧
    (refreshClaims "u" 1000 1000).ExpiresAt = 1000 + 604800 ∧
    (refreshClaims "u" 1000 1000).IssuedAt = 1000 ∧
    ((1000 : Int) = 1000 →
      (accessClaims "u" 1000 1000).ExpiresAt = (accessClaims "u" 1000 1000).IssuedAt + 900 ∧
      (refreshClaims "u" 1000 1000).ExpiresAt = (refreshClaims "u" 1000 1000).IssuedAt + 604800 ∧
      (accessClaims "u" 1000 1000).IssuedAt < (accessClaims "u" 1000 1000).ExpiresAt) :=
  C5_minter_ttl toyAEAD nonce12 "u" zeroKeyHex 1000 1000

/-- C6 counterexample: a payload that decrypts correctly but has no `id`
member is not rejected: `ValidateToken` succeeds and returns Claims whose
subject id is the defaulted empty string. -/
theorem C6_counterexample_missing_id_accepted :
    ValidateToken toyAEAD tokenNoId zeroKeyHex 50 =
      .ok { Id := "", ExpiresAt := 99, IssuedAt := 1 } := by
  decide

/-- C6 amended: deserialization fails on payloads that are not this JSON
object fragment or whose known fields carry the wrong type (e.g. a numeric
`id`), but a well-formed object missing some of the three fields
deserializes successfully with the Go zero value for the missing fields,
rather than failing with a malformed-claims error. -/
theorem C6_unmarshal_missing_fields_default (e i : Int) (he : 0 ≤ e) (hi : 0 ≤ i) :
    unmarshalClaims (marshalNoId e i) = some { Id := "", ExpiresAt := e, IssuedAt := i } ∧
    unmarshalClaims [123, 34, 105, 100, 34, 58, 53, 125] = none ∧
    unmarshalClaims (strBytes "not json") = none :=
  ⟨unmarshalClaims_marshalNoId e i he hi, by decide, by decide⟩

/-- C6 witness at concrete timestamps. -/
theorem C6_unmarshal_missing_fields_default_witness :
    unmarshalClaims (marshalNoId 99 1) = some { Id := "", ExpiresAt := 99, IssuedAt := 1 } ∧
    unmarshalClaims [123, 34, 105, 100, 34, 58, 53, 125] = none ∧
    unmarshalClaims (strBytes "not json") = none :=
  C6_unmarshal_missing_fields_default 99 1 (by decide) (by decide)

/-- C7: whenever the AEAD rejects the sealed bytes under the second key
(which chacha20poly1305 does on any key other than the sealing one), a
token minted under key A fails validation under key B with the
authentication-failed error, and no Claims value accompanies the error. -/
theorem C7_wrong_key_rejected (A : AEAD) (id keyHexA keyHexB : String)
    (keyA keyB nonce : List Nat) (t now : Int)
    (hkA : hexDecode keyHexA = some keyA) (hAl : keyA.length = 32)
    (hkB : hexDecode keyHexB = some keyB) (hBl : keyB.length = 32)
    (_hne : keyA ≠ keyB)
    (hnl : nonce.length = 12) (hnb : ∀ b ∈ nonce, b < 256)
    (hsb : ∀ b ∈ A.sealFn keyA nonce (marshalClaims (accessClaims id t t)), b < 256)
    (hauth : A.openFn keyB nonce (A.sealFn keyA nonce (marshalClaims (accessClaims id t t))) = none) :
    GenerateAccessToken A nonce id keyHexA t t =
      .ok (hexEncode (nonce ++ A.sealFn keyA nonce (marshalClaims (accessClaims id t t)))) ∧
    ValidateToken A
        (hexEncode (nonce ++ A.sealFn keyA nonce (marshalClaims (accessClaims id t t))))
        keyHexB now =
      .err "chacha20poly1305: message authentication failed" := by
  refine ⟨GenerateAccessToken_ok A nonce id keyHexA keyA t t hkA hAl, ?_⟩
  exact ValidateToken_of_autherr (DecryptData_open_fail hkB hBl hnl hnb hsb hauth)

/-- C7 witness: all-zero key versus all-ones key on the toy AEAD. -/
theorem C7_wrong_key_rejected_witness :
    GenerateAccessToken toyAEAD nonce12 "u" zeroKeyHex 0 0 =
      .ok (hexEncode (nonce12 ++ toyAEAD.sealFn (List.replicate 32 0) nonce12
        (marshalClaims (accessClaims "u" 0 0)))) ∧
    ValidateToken toyAEAD
        (hexEncode (nonce12 ++ toyAEAD.sealFn (List.replicate 32 0) nonce12
          (marshalClaims (accessClaims "u" 0 0)))) onesKeyHex 0 =
      .err "chacha20poly1305: message authentication failed" :=
  C7_wrong_key_rejected toyAEAD "u" zeroKeyHex onesKeyHex (List.replicate 32 0)
    (List.replicate 32 1) nonce12 0 0 (by decide) (by decide) (by decide) (by decide)
    (by decide) (by decide) (by decide) (by decide) (by decide)

/-- C8: the minted token is exactly the hex encoding of the 12-byte nonce
followed by ciphertext-plus-16-byte-tag, with no header or version byte:
it decodes back to `nonce ++ sealed` and its length is
`2 * (plaintext length + 28)` hex characters. -/
theorem C8_token_wire_format (A : AEAD) (keyHex : String) (key nonce pt : List Nat)
    (hk : hexDecode keyHex = some key) (hkl : key.length = 32)
    (hnl : nonce.length = 12) (hnb : ∀ b ∈ nonce, b < 256)
    (hsb : ∀ b ∈ A.sealFn key nonce pt, b < 256)
    (hslen : (A.sealFn key nonce pt).length = pt.length + 16) :
    EncryptData A nonce pt keyHex = .ok (hexEncode (nonce ++ A.sealFn key nonce pt)) ∧
    (hexEncode (nonce ++ A.sealFn key nonce pt)).length = 2 * (pt.length + 28) ∧
    hexDecode (hexEncode (nonce ++ A.sealFn key nonce pt)) =
      some (nonce ++ A.sealFn key nonce pt) := by
  have hall : ∀ b ∈ nonce ++ A.sealFn key nonce pt, b < 256 := by
    intro b hb
    rcases List.mem_append.mp hb with h | h
    exacts [hnb b h, hsb b h]
  
  refine ⟨?_, ?_, hexDecode_hexEncode _ hall⟩
  · rw [EncryptData, hk]
    simp [hkl]
  · rw [hexEncode_length, List.length_append, hnl, hslen]
    ring

/-- C8 witness on a three-byte plaintext. -/
theorem C8_token_wire_format_witness :
    EncryptData toyAEAD nonce12 [1, 2, 3] zeroKeyHex =
      .ok (hexEncode (nonce12 ++ toyAEAD.sealFn (List.replicate 32 0) nonce12 [1, 2, 3])) ∧
    (hexEncode (nonce12 ++ toyAEAD.sealFn (List.replicate 32 0) nonce12 [1, 2, 3])).length =
      2 * (([1, 2, 3] : List Nat).length + 28) ∧
    hexDecode (hexEncode (nonce12 ++ toyAEAD.sealFn (List.replicate 32 0) nonce12 [1, 2, 3])) =
      some (nonce12 ++ toyAEAD.sealFn (List.replicate 32 0) nonce12 [1, 2, 3]) :=
  C8_token_wire_format toyAEAD zeroKeyHex (List.replicate 32 0) nonce12 [1, 2, 3]
    (by decide) (by decide) (by decide) (by decide) (by decide) (by decide)

/-- C9: the two-run statement over the nonce input: two mints of the same
subject under the same key that draw different 12-byte nonces from the
CSPRNG produce different token strings, because the nonce is embedded in
the clear at the front of the token. -/
theorem C9_distinct_nonces_distinct_tokens (A : AEAD) (id keyHex : String)
    (key n1 n2 : List Nat) (t : Int)
    (hk : hexDecode keyHex = some key) (hkl : key.length = 32)
    (h1l : n1.length = 12) (h2l : n2.length = 12)
    (h1b : ∀ b ∈ n1, b < 256) (h2b : ∀ b ∈ n2, b < 256)
    (hs1 : ∀ b ∈ A.sealFn key n1 (marshalClaims (accessClaims id t t)), b < 256)
    (hs2 : ∀ b ∈ A.sealFn key n2 (marshalClaims (accessClaims id t t)), b < 256)
    (hne : n1 ≠ n2) :
    GenerateAccessToken A n1 id keyHex t t ≠ GenerateAccessToken A n2 id keyHex t t := by
  rw [GenerateAccessToken_ok A n1 id keyHex key t t hk hkl,
    GenerateAccessToken_ok A n2 id keyHex key t t hk hkl]
  intro h
  have hb1 : ∀ b ∈ n1 ++ A.sealFn key n1 (marshalClaims (accessClaims id t t)), b < 256 := by
    intro b hb
    rcases List.mem_append.mp hb with hx | hx
    exacts [h1b b hx, hs1 b hx]
  have hb2 : ∀ b ∈ n2 ++ A.sealFn key n2 (marshalClaims (accessClaims id t t)), b < 256 := by
    intro b hb
    rcases List.mem_append.mp hb with hx | hx
    exacts [h2b b hx, hs2 b hx]
  have hlists := hexEncode_injOn hb1 hb2 (by injection h)
  have ht1 : (n1 ++ A.sealFn key n1 (marshalClaims (accessClaims id t t))).take 12 = n1 :=
    List.take_left' h1l
  have ht2 : (n2 ++ A.sealFn key n2 (marshalClaims (accessClaims id t t))).take 12 = n2 :=
    List.take_left' h2l
  exact hne (by rw [← ht1, ← ht2, hlists])

/-- C9 witness on two concrete distinct nonces. -/
theorem C9_distinct_nonces_distinct_tokens_witness :
    GenerateAccessToken toyAEAD nonce12 "u" zeroKeyHex 0 0 ≠
      GenerateAccessToken toyAEAD (List.replicate 12 7) "u" zeroKeyHex 0 0 :=
  C9_distinct_nonces_distinct_tokens toyAEAD "u" zeroKeyHex (List.replicate 32 0) nonce12
    (List.replicate 12 7) 0 (by decide) (by decide) (by decide) (by decide) (by decide)
    (by decide) (by decide) (by decide) (by decide)

/-- C10: `ValidateToken` never re-checks the minting invariant
`expiresAt > issuedAt`: a decryptable payload with `ExpiresAt = 100` before
`IssuedAt = 200` still validates (at `now = 50`) and is returned unchanged. -/
theorem C10_no_expiry_issue_order_check :
    ValidateToken toyAEAD tokenInverted zeroKeyHex 50 = .ok invertedClaims ∧
    invertedClaims.ExpiresAt ≤ invertedClaims.IssuedAt := by
  exact ⟨by decide, by decide⟩
